import Mathlib

/-!
Verification of the memfs in-memory file system.

The embedding mirrors the Rust sources:
  * `File` with `File.write` / `File.read` follows `src/file.rs`;
  * `FileSystemError` follows `src/error.rs`;
  * the store operations `touchOp` / `writeOp` / `readOp` follow
    `FileSystem::touch` / `FileSystem::write` / `FileSystem::read` in
    `src/lib.rs`, with the `HashMap<String, File>` modelled as an
    association list and `usize` modelled as `Nat` together with the
    bound `USIZE_MAX` (checked_add overflows exactly when the sum
    exceeds `USIZE_MAX`).
Mutating operations return the operation result paired with the
resulting store, so that claims about state preservation on failure are
expressible; `FileSystem::read` takes `&self` in Rust and is embedded
as a pure function.
-/

namespace Memfs

/-- Largest value of `usize` on the 64-bit platform the crate targets. -/
def USIZE_MAX : Nat := 2 ^ 64 - 1

/-- One file: a growable byte buffer (`struct File { data: Vec<u8> }`). -/
structure File where
  data : List Nat
deriving DecidableEq, Repr

/-- Embeds `File::new` from src/file.rs. -/
def File.new : File := ⟨[]⟩

/-- Embeds `File::write` from src/file.rs: early return on empty data,
resize with zero fill to `end_pos` when it exceeds the current length,
then copy `data` over the range `[offset, end_pos)`. -/
def File.write (f : File) (offset : Nat) (data : List Nat) : File :=
  if data.isEmpty then f
  else
    let end_pos := offset + data.length
    let resized :=
      if f.data.length < end_pos then
        f.data ++ List.replicate (end_pos - f.data.length) 0
      else f.data
    ⟨resized.take offset ++ data ++ resized.drop end_pos⟩

/-- Embeds `File::read` from src/file.rs: empty result when the offset is
at or past the end, otherwise the slice `[offset, min (offset+len) length)`. -/
def File.read (f : File) (offset len : Nat) : List Nat :=
  if f.data.length ≤ offset then []
  else
    let end_pos := min (offset + len) f.data.length
    (f.data.take end_pos).drop offset

/-- Embeds `FileSystemError` from src/error.rs. -/
inductive FileSystemError where
  | FileNotFound (path : String)
  | InvalidPath (msg : String)
  | ReadError (msg : String)
  | WriteError (msg : String)
deriving DecidableEq, Repr

/-- The store: the `HashMap<String, Arc<RwLock<File>>>` as an association
list from paths to files. -/
abbrev FS := List (String × File)

/-- Association-list lookup, embedding `HashMap::get` / entry lookup. -/
def findFile (fs : FS) (path : String) : Option File :=
  match fs with
  | [] => none
  | (p, f) :: rest => if p = path then some f else findFile rest path

/-- Replaces the entry at `path` with `f`, inserting it when absent;
together with `findFile` this embeds the `entry(..).or_insert_with(..)`
access followed by in-place mutation of the shared file. -/
def storeFile (fs : FS) (path : String) (f : File) : FS :=
  match fs with
  | [] => [(path, f)]
  | (p, g) :: rest =>
      if p = path then (p, f) :: rest else (p, g) :: storeFile rest path f

/-- Embeds `FileSystem::touch` from src/lib.rs: reject the empty path,
then insert a fresh empty file only when no entry exists. -/
def touchOp (fs : FS) (path : String) : Except FileSystemError Unit × FS :=
  if path = "" then
    (Except.error (FileSystemError.InvalidPath "Path cannot be empty"), fs)
  else
    match findFile fs path with
    | some _ => (Except.ok (), fs)
    | none => (Except.ok (), storeFile fs path File.new)

/-- Embeds `FileSystem::write` from src/lib.rs: reject the empty path,
then fail when `offset + data.len()` overflows `usize`, then fetch or
lazily create the file and delegate to `File.write`. -/
def writeOp (fs : FS) (path : String) (offset : Nat) (data : List Nat) :
    Except FileSystemError Unit × FS :=
  if path = "" then
    (Except.error (FileSystemError.InvalidPath "Path cannot be empty"), fs)
  else if USIZE_MAX < offset + data.length then
    (Except.error (FileSystemError.WriteError "Write operation would cause overflow"), fs)
  else
    let f := (findFile fs path).getD File.new
    (Except.ok (), storeFile fs path (f.write offset data))

/-- Embeds `FileSystem::read` from src/lib.rs: reject the empty path,
short-circuit `len = 0` to an empty result, fail when `offset + len`
overflows `usize`, then look the file up, delegating to `File.read` on a
hit and failing with `FileNotFound` on a miss. -/
def readOp (fs : FS) (path : String) (offset len : Nat) :
    Except FileSystemError (List Nat) :=
  if path = "" then
    Except.error (FileSystemError.InvalidPath "Path cannot be empty")
  else if len = 0 then
    Except.ok []
  else if USIZE_MAX < offset + len then
    Except.error (FileSystemError.ReadError "Read operation would cause overflow")
  else
    match findFile fs path with
    | some f => Except.ok (f.read offset len)
    | none => Except.error (FileSystemError.FileNotFound path)

/-- One call at the public boundary of the store. -/
inductive Op where
  | touch (path : String)
  | write (path : String) (offset : Nat) (data : List Nat)
  | read (path : String) (offset len : Nat)
deriving Repr

/-- The store state reached after one public operation (reads take
`&self` and leave the store untouched). -/
def applyOp (fs : FS) : Op → FS
  | Op.touch p => (touchOp fs p).2
  | Op.write p o d => (writeOp fs p o d).2
  | Op.read _ _ _ => fs

/-! ### Helper lemmas about the embedding -/

theorem findFile_storeFile_self (fs : FS) (path : String) (f : File) :
    findFile (storeFile fs path f) path = some f := by
  induction fs with
  | nil => simp [storeFile, findFile]
  | cons hd tl ih =>
      obtain ⟨p, g⟩ := hd
      by_cases hp : p = path
      · simp [storeFile, findFile, hp]
      · simp [storeFile, findFile, hp, ih]

theorem findFile_storeFile_ne (fs : FS) (path q : String) (f : File)
    (hq : q ≠ path) : findFile (storeFile fs path f) q = findFile fs q := by
  induction fs with
  | nil => simp [storeFile, findFile, Ne.symm hq]
  | cons hd tl ih =>
      obtain ⟨p, g⟩ := hd
      by_cases hp : p = path
      · subst hp
        simp [storeFile, findFile, Ne.symm hq]
      · simp [storeFile, findFile, hp, ih]

theorem File.write_nil (f : File) (offset : Nat) : f.write offset [] = f := by
  simp [File.write]

/-- Closed form of `File.write` on non-empty data: the old prefix below
`offset`, the zero gap, the data, then the old suffix past the write. -/
theorem File.write_data_eq (f : File) (offset : Nat) (data : List Nat)
    (hd : data ≠ []) :
    (f.write offset data).data =
      f.data.take offset ++ List.replicate (offset - f.data.length) 0 ++
        data ++ f.data.drop (offset + data.length) := by
  have hne : data.isEmpty = false := by simpa [List.isEmpty_iff] using hd
  by_cases h : f.data.length < offset + data.length
  · simp only [File.write, hne, Bool.false_eq_true, if_false, if_pos h]
    have hdrop : (f.data ++ List.replicate (offset + data.length - f.data.length) 0).drop
        (offset + data.length) = [] := by
      apply List.drop_eq_nil_of_le
      simp only [List.length_append, List.length_replicate]
      omega
    have hdrop' : f.data.drop (offset + data.length) = [] :=
      List.drop_eq_nil_of_le (by omega)
    rw [hdrop, hdrop', List.take_append_eq_append_take, List.take_replicate]
    have hmin : min (offset - f.data.length) (offset + data.length - f.data.length)
        = offset - f.data.length := by omega
    rw [hmin]
  · simp only [File.write, hne, Bool.false_eq_true, if_false, if_neg h]
    have : offset - f.data.length = 0 := by omega
    simp [this]

/-- Length of a buffer after a non-empty write: the high-water mark. -/
theorem File.write_data_length (f : File) (offset : Nat) (data : List Nat)
    (hd : data ≠ []) :
    (f.write offset data).data.length = max f.data.length (offset + data.length) := by
  rw [File.write_data_eq f offset data hd]
  simp [List.length_take]
  omega

/-- A write never shrinks the buffer. -/
theorem File.write_length_mono (f : File) (offset : Nat) (data : List Nat) :
    f.data.length ≤ (f.write offset data).data.length := by
  by_cases hd : data = []
  · simp [hd, File.write_nil]
  · rw [File.write_data_length f offset data hd]
    omega

/-! ### Claim theorems -/

/-- C1: reading a non-empty path that has no entry in the store, with a
positive length whose end offset does not overflow, fails with
`FileNotFound` and returns no data. -/
theorem read_missing_path_fileNotFound (fs : FS) (path : String)
    (offset len : Nat) (hp : path ≠ "") (hmiss : findFile fs path = none)
    (hlen : 0 < len) (hov : offset + len ≤ USIZE_MAX) :
    readOp fs path offset len =
      Except.error (FileSystemError.FileNotFound path) := by
  simp [readOp, hp, hmiss, Nat.pos_iff_ne_zero.mp hlen, Nat.not_lt.mpr hov]

/-- Witness for C1 at the empty store, path "/a", offset 0, length 1. -/
theorem read_missing_path_fileNotFound_witness :
    ("/a" : String) ≠ "" ∧ findFile ([] : FS) "/a" = none ∧ 0 < 1 ∧
      0 + 1 ≤ USIZE_MAX ∧
      readOp ([] : FS) "/a" 0 1 =
        Except.error (FileSystemError.FileNotFound "/a") :=
  ⟨by decide, rfl, by decide, by decide,
    read_missing_path_fileNotFound [] "/a" 0 1 (by decide) rfl (by decide)
      (by decide)⟩

/-- C8: a zero-length read on a non-empty path returns an empty byte
sequence and never an error, whether or not the path has an entry. -/
theorem read_zero_len_ok (fs : FS) (path : String) (offset : Nat)
    (hp : path ≠ "") : readOp fs path offset 0 = Except.ok [] := by
  simp [readOp, hp]

/-- Witness for C8 at the empty store (no entry for "/a"), offset 7. -/
theorem read_zero_len_ok_witness :
    ("/a" : String) ≠ "" ∧ readOp ([] : FS) "/a" 7 0 = Except.ok [] :=
  ⟨by decide, read_zero_len_ok [] "/a" 7 (by decide)⟩

/-- C6: touch (create) is idempotent: touching a path twice yields the
same store as touching it once, the second call succeeding; and when an
entry already exists, touch changes nothing and returns success. -/
theorem touch_idempotent (fs : FS) (path : String) (hp : path ≠ "") :
    touchOp (touchOp fs path).2 path = (Except.ok (), (touchOp fs path).2) ∧
    (∀ f, findFile fs path = some f → touchOp fs path = (Except.ok (), fs)) := by
  refine ⟨?_, fun f hf => by simp [touchOp, hp, hf]⟩
  cases hfind : findFile fs path with
  | some f =>
      have h2 : touchOp fs path = (Except.ok (), fs) := by
        simp [touchOp, hp, hfind]
      rw [h2]
      simp [touchOp, hp, hfind]
  | none =>
      have h2 : (touchOp fs path).2 = storeFile fs path File.new := by
        simp [touchOp, hp, hfind]
      rw [h2]
      simp [touchOp, hp, findFile_storeFile_self]

/-- Witness for C6 at a store already holding one file at "/a". -/
theorem touch_idempotent_witness :
    ("/a" : String) ≠ "" ∧
      (touchOp (touchOp [("/a", File.new)] "/a").2 "/a" =
          (Except.ok (), (touchOp ([("/a", File.new)] : FS) "/a").2) ∧
        (∀ f, findFile ([("/a", File.new)] : FS) "/a" = some f →
          touchOp ([("/a", File.new)] : FS) "/a" =
            (Except.ok (), [("/a", File.new)]))) :=
  ⟨by decide, touch_idempotent [("/a", File.new)] "/a" (by decide)⟩

/-- C10: argument validation happens in a fixed order: the empty-path
check precedes the zero-length short-circuit and the overflow check, and
the zero-length short-circuit precedes the existence check. -/
theorem validation_order (fs : FS) (path : String) (offset : Nat)
    (data : List Nat) :
    readOp fs "" offset 0 =
      Except.error (FileSystemError.InvalidPath "Path cannot be empty") ∧
    (data ≠ [] → (writeOp fs "" USIZE_MAX data).1 =
      Except.error (FileSystemError.InvalidPath "Path cannot be empty")) ∧
    (path ≠ "" → findFile fs path = none →
      readOp fs path offset 0 = Except.ok []) := by
  exact ⟨by simp [readOp], fun _ => by simp [writeOp],
    fun hp _ => by simp [readOp, hp]⟩

/-- Witness for C10 at the empty store, path "/a", offset 5, data [1]. -/
theorem validation_order_witness :
    readOp ([] : FS) "" 5 0 =
      Except.error (FileSystemError.InvalidPath "Path cannot be empty") ∧
    (writeOp ([] : FS) "" USIZE_MAX [1]).1 =
      Except.error (FileSystemError.InvalidPath "Path cannot be empty") ∧
    readOp ([] : FS) "/a" 5 0 = Except.ok [] :=
  ⟨(validation_order [] "/a" 5 [1]).1,
    (validation_order [] "/a" 5 [1]).2.1 (by decide),
    (validation_order [] "/a" 5 [1]).2.2 (by decide) rfl⟩

/-- C3: a zero-length write on a non-empty path succeeds, preserves the
content of every existing buffer, lazily creates an empty entry for the
path when none exists, and a subsequent read at the creation offset on
that previously missing path returns an empty sequence, not
`FileNotFound`. -/
theorem write_empty_data_lazy_create (fs : FS) (path : String)
    (offset : Nat) (hp : path ≠ "") (hoff : offset ≤ USIZE_MAX) :
    (writeOp fs path offset []).1 = Except.ok () ∧
    (∀ q f, findFile fs q = some f →
      findFile (writeOp fs path offset []).2 q = some f) ∧
    (findFile fs path = none →
      findFile (writeOp fs path offset []).2 path = some File.new) ∧
    (∀ len, findFile fs path = none → offset + len ≤ USIZE_MAX →
      readOp (writeOp fs path offset []).2 path offset len = Except.ok []) := by
  have hno : ¬ USIZE_MAX < offset := Nat.not_lt.mpr hoff
  have hstate : (writeOp fs path offset []).2 =
      storeFile fs path ((findFile fs path).getD File.new) := by
    simp [writeOp, hp, hno, File.write_nil]
  refine ⟨by simp [writeOp, hp, hno], ?_, ?_, ?_⟩
  · intro q f hf
    by_cases hq : q = path
    · subst hq
      rw [hstate, hf]
      simpa using findFile_storeFile_self fs q f
    · rw [hstate, findFile_storeFile_ne _ _ _ _ hq]
      exact hf
  · intro hnone
    rw [hstate, hnone]
    simpa using findFile_storeFile_self fs path File.new
  · intro len hnone hov
    by_cases hl : len = 0
    · simp [readOp, hp, hl]
    · rw [hstate, hnone]
      simp [readOp, hp, hl, Nat.not_lt.mpr hov, findFile_storeFile_self,
        File.new, File.read]

/-- Witness for C3 at the empty store, path "/a", offset 3. -/
theorem write_empty_data_lazy_create_witness :
    ("/a" : String) ≠ "" ∧ 3 ≤ USIZE_MAX ∧
      ((writeOp ([] : FS) "/a" 3 []).1 = Except.ok () ∧
        (∀ q f, findFile ([] : FS) q = some f →
          findFile (writeOp ([] : FS) "/a" 3 []).2 q = some f) ∧
        (findFile ([] : FS) "/a" = none →
          findFile (writeOp ([] : FS) "/a" 3 []).2 "/a" = some File.new) ∧
        (∀ len, findFile ([] : FS) "/a" = none → 3 + len ≤ USIZE_MAX →
          readOp (writeOp ([] : FS) "/a" 3 []).2 "/a" 3 len = Except.ok [])) :=
  ⟨by decide, by decide,
    write_empty_data_lazy_create [] "/a" 3 (by decide) (by decide)⟩

/-- C5: on a non-empty path, a write fails with `WriteError` exactly when
`offset + length(data)` overflows `usize`, a positive-length read fails
with `ReadError` exactly when `offset + len` overflows, and an
overflowing write leaves the store unchanged. -/
theorem overflow_guards (fs : FS) (path : String) (offset : Nat)
    (data : List Nat) (len : Nat) (hp : path ≠ "") (hlen : 0 < len) :
    ((∃ s, (writeOp fs path offset data).1 =
        Except.error (FileSystemError.WriteError s)) ↔
      USIZE_MAX < offset + data.length) ∧
    (USIZE_MAX < offset + data.length → (writeOp fs path offset data).2 = fs) ∧
    ((∃ s, readOp fs path offset len =
        Except.error (FileSystemError.ReadError s)) ↔
      USIZE_MAX < offset + len) := by
  have hl0 : len ≠ 0 := Nat.pos_iff_ne_zero.mp hlen
  refine ⟨⟨?_, ?_⟩, ?_, ⟨?_, ?_⟩⟩
  · rintro ⟨s, hs⟩
    by_contra hov
    simp [writeOp, hp, hov] at hs
  · intro hov
    exact ⟨"Write operation would cause overflow", by simp [writeOp, hp, hov]⟩
  · intro hov
    simp [writeOp, hp, hov]
  · rintro ⟨s, hs⟩
    by_contra hov
    cases hfind : findFile fs path with
    | some f => simp [readOp, hp, hl0, hov, hfind] at hs
    | none => simp [readOp, hp, hl0, hov, hfind] at hs
  · intro hov
    exact ⟨"Read operation would cause overflow", by simp [readOp, hp, hl0, hov]⟩

/-- Witness for C5 at the empty store, path "/a", the maximal offset,
one data byte and read length 1, where both guards fire. -/
theorem overflow_guards_witness :
    ("/a" : String) ≠ "" ∧ 0 < 1 ∧
      (((∃ s, (writeOp ([] : FS) "/a" USIZE_MAX [1]).1 =
            Except.error (FileSystemError.WriteError s)) ↔
          USIZE_MAX < USIZE_MAX + List.length [1]) ∧
        (USIZE_MAX < USIZE_MAX + List.length [1] →
          (writeOp ([] : FS) "/a" USIZE_MAX [1]).2 = []) ∧
        ((∃ s, readOp ([] : FS) "/a" USIZE_MAX 1 =
            Except.error (FileSystemError.ReadError s)) ↔
          USIZE_MAX < USIZE_MAX + 1)) :=
  ⟨by decide, by decide,
    overflow_guards [] "/a" USIZE_MAX [1] 1 (by decide) (by decide)⟩

/-- Helper for C7: one public operation never shrinks any buffer and
never removes an entry. -/
theorem applyOp_length_mono (op : Op) (fs : FS) (p : String) (f : File)
    (hf : findFile fs p = some f) :
    ∃ f', findFile (applyOp fs op) p = some f' ∧
      f.data.length ≤ f'.data.length := by
  cases op with
  | read q o l => exact ⟨f, hf, Nat.le_refl _⟩
  | touch q =>
      by_cases hq : q = ""
      · refine ⟨f, ?_, Nat.le_refl _⟩
        simpa [applyOp, touchOp, hq] using hf
      · cases hfind : findFile fs q with
        | some g =>
            refine ⟨f, ?_, Nat.le_refl _⟩
            simpa [applyOp, touchOp, hq, hfind] using hf
        | none =>
            have hpq : p ≠ q := by
              intro h
              rw [h, hfind] at hf
              cases hf
            refine ⟨f, ?_, Nat.le_refl _⟩
            simpa [applyOp, touchOp, hq, hfind,
              findFile_storeFile_ne _ _ _ _ hpq] using hf
  | write q o d =>
      by_cases hq : q = ""
      · refine ⟨f, ?_, Nat.le_refl _⟩
        simpa [applyOp, writeOp, hq] using hf
      · by_cases hov : USIZE_MAX < o + d.length
        · refine ⟨f, ?_, Nat.le_refl _⟩
          simpa [applyOp, writeOp, hq, hov] using hf
        · by_cases hpq : p = q
          · subst hpq
            refine ⟨((findFile fs p).getD File.new).write o d, ?_, ?_⟩
            · simp [applyOp, writeOp, hq, hov, findFile_storeFile_self]
            · rw [hf]
              simpa using File.write_length_mono f o d
          · refine ⟨f, ?_, Nat.le_refl _⟩
            simpa [applyOp, writeOp, hq, hov,
              findFile_storeFile_ne _ _ _ _ hpq] using hf

/-- C7: across any sequence of public operations, every buffer's length
is monotonically non-decreasing and no entry is ever removed. -/
theorem buffer_length_monotone (ops : List Op) (fs : FS) (p : String)
    (f : File) (hf : findFile fs p = some f) :
    ∃ f', findFile (ops.foldl applyOp fs) p = some f' ∧
      f.data.length ≤ f'.data.length := by
  induction ops generalizing fs f with
  | nil => exact ⟨f, hf, Nat.le_refl _⟩
  | cons op rest ih =>
      obtain ⟨g, hg, hle⟩ := applyOp_length_mono op fs p f hf
      obtain ⟨f', hf', hle'⟩ := ih (applyOp fs op) g hg
      exact ⟨f', by simpa using hf', Nat.le_trans hle hle'⟩

/-- Witness for C7: a write then a touch applied to a store holding two
bytes at "/a". -/
theorem buffer_length_monotone_witness :
    findFile ([("/a", ⟨[1, 2]⟩)] : FS) "/a" = some ⟨[1, 2]⟩ ∧
      ∃ f', findFile
          (([Op.write "/a" 4 [9], Op.touch "/a"]).foldl applyOp
            [("/a", ⟨[1, 2]⟩)]) "/a" = some f' ∧
        (File.mk [1, 2]).data.length ≤ f'.data.length :=
  ⟨rfl, buffer_length_monotone [Op.write "/a" 4 [9], Op.touch "/a"]
    [("/a", ⟨[1, 2]⟩)] "/a" ⟨[1, 2]⟩ rfl⟩

/-- C2: a non-overflowing non-empty write extends the buffer to
`max (old length) (offset + length data)`, zero-fills the gap between
the old length and `offset`, places `data` at `[offset, offset +
length data)`, and keeps every other previously existing byte. -/
theorem file_write_spec (f : File) (offset : Nat) (data : List Nat)
    (hd : data ≠ []) (hov : offset + data.length ≤ USIZE_MAX) :
    (f.write offset data).data.length =
      max f.data.length (offset + data.length) ∧
    (∀ i, f.data.length ≤ i → i < offset →
      (f.write offset data).data[i]? = some 0) ∧
    (∀ i, i < data.length →
      (f.write offset data).data[offset + i]? = data[i]?) ∧
    (∀ i, i < f.data.length → (i < offset ∨ offset + data.length ≤ i) →
      (f.write offset data).data[i]? = f.data[i]?) := by
  have key : (f.write offset data).data =
      (f.data.take offset ++ List.replicate (offset - f.data.length) 0) ++
        (data ++ f.data.drop (offset + data.length)) := by
    rw [File.write_data_eq f offset data hd]
    simp [List.append_assoc]
  have hP : (f.data.take offset ++
      List.replicate (offset - f.data.length) 0).length = offset := by
    simp only [List.length_append, List.length_take, List.length_replicate]
    omega
  refine ⟨File.write_data_length f offset data hd, ?_, ?_, ?_⟩
  · intro i hLi hio
    rw [key, List.getElem?_append_left (by rw [hP]; exact hio),
      List.getElem?_append_right (by simp only [List.length_take]; omega)]
    apply List.getElem?_replicate_of_lt
    simp only [List.length_take]
    omega
  · intro i hi
    rw [key, List.getElem?_append_right (by rw [hP]; omega), hP]
    have hidx : offset + i - offset = i := by omega
    rw [hidx, List.getElem?_append_left hi]
  · intro i hiL hside
    rcases hside with hlt | hge
    · rw [key, List.getElem?_append_left (by rw [hP]; exact hlt),
        List.getElem?_append_left (by simp only [List.length_take]; omega)]
      exact List.getElem?_take_of_lt hlt
    · rw [key, List.getElem?_append_right (by rw [hP]; omega), hP,
        List.getElem?_append_right (by omega), List.getElem?_drop]
      congr 1
      omega

/-- Witness for C2: writing "world" at offset 5 into the empty buffer,
where reading `[0, 10)` yields five zero bytes followed by "world". -/
theorem file_write_spec_witness :
    ([119, 111, 114, 108, 100] : List Nat) ≠ [] ∧
    5 + List.length ([119, 111, 114, 108, 100] : List Nat) ≤ USIZE_MAX ∧
    File.read (File.write ⟨[]⟩ 5 [119, 111, 114, 108, 100]) 0 10 =
      [0, 0, 0, 0, 0, 119, 111, 114, 108, 100] ∧
    ((File.write ⟨[]⟩ 5 [119, 111, 114, 108, 100]).data.length =
        max (File.mk []).data.length
          (5 + List.length ([119, 111, 114, 108, 100] : List Nat)) ∧
      (∀ i, (File.mk []).data.length ≤ i → i < 5 →
        (File.write ⟨[]⟩ 5 [119, 111, 114, 108, 100]).data[i]? = some 0) ∧
      (∀ i, i < List.length ([119, 111, 114, 108, 100] : List Nat) →
        (File.write ⟨[]⟩ 5 [119, 111, 114, 108, 100]).data[5 + i]? =
          ([119, 111, 114, 108, 100] : List Nat)[i]?) ∧
      (∀ i, i < (File.mk []).data.length →
        (i < 5 ∨ 5 + List.length ([119, 111, 114, 108, 100] : List Nat) ≤ i) →
        (File.write ⟨[]⟩ 5 [119, 111, 114, 108, 100]).data[i]? =
          (File.mk []).data[i]?)) :=
  ⟨by decide, by decide, rfl,
    file_write_spec ⟨[]⟩ 5 [119, 111, 114, 108, 100] (by decide) (by decide)⟩

/-- C4: a buffer read returns the slice from `offset` to
`min (offset + len) length`: empty when the offset is at or past the
end, truncated to the available bytes and never padded otherwise. -/
theorem file_read_spec (f : File) (offset len : Nat) :
    f.read offset len =
      (f.data.drop offset).take (min (offset + len) f.data.length - offset) ∧
    (f.read offset len).length = min len (f.data.length - offset) ∧
    (f.data.length ≤ offset → f.read offset len = []) := by
  have h1 : f.read offset len =
      (f.data.drop offset).take (min (offset + len) f.data.length - offset) := by
    by_cases h : f.data.length ≤ offset
    · simp only [File.read, if_pos h]
      rw [List.drop_eq_nil_of_le h]
      simp
    · simp only [File.read, if_neg h]
      rw [List.drop_take]
  refine ⟨h1, ?_, fun h => by simp [File.read, h]⟩
  rw [h1]
  simp only [List.length_take, List.length_drop]
  omega

/-- Witness for C4: reading offset 3, length 10 from "hello" returns the
two available bytes "lo". -/
theorem file_read_spec_witness :
    File.read ⟨[104, 101, 108, 108, 111]⟩ 3 10 = [108, 111] ∧
    (File.read ⟨[104, 101, 108, 108, 111]⟩ 3 10 =
        ((File.mk [104, 101, 108, 108, 111]).data.drop 3).take
          (min (3 + 10) (File.mk [104, 101, 108, 108, 111]).data.length - 3) ∧
      (File.read ⟨[104, 101, 108, 108, 111]⟩ 3 10).length =
        min 10 ((File.mk [104, 101, 108, 108, 111]).data.length - 3) ∧
      ((File.mk [104, 101, 108, 108, 111]).data.length ≤ 3 →
        File.read ⟨[104, 101, 108, 108, 111]⟩ 3 10 = [])) :=
  ⟨rfl, file_read_spec ⟨[104, 101, 108, 108, 111]⟩ 3 10⟩

end Memfs
